import Mathlib

/-!
Verification of the bit-banged I²C master in
`src/experimental/devices/bitbang/i2c.go` (package `bitbang`).

The Go code drives two GPIO pins (SCL, SDA) through the `gpio.PinIO`
capability: `In(PullUp, NoEdge)` (release the line, pulled high),
`Out(level)` (drive the line), `Read()` (sample the level).  We embed each
routine as a function that, given an environment (the levels the pins read
back, and which pin-configuration operations fail) and a counter state,
returns its Go result together with the list of pin events it issued, in
order.  The clock-stretch loop in `writeByte` is the only unbounded loop in
the source; it is embedded with explicit fuel, `none` standing for the
divergence the Go code exhibits when the slave holds SCL low forever.
-/

namespace Bitbang

/-- A GPIO level (`gpio.Low` / `gpio.High`). -/
inductive Level
  | low
  | high
deriving DecidableEq

/-- The two pins of the bus: clock (SCL) and data (SDA). -/
inductive Pin
  | scl
  | sda
deriving DecidableEq

/-- One pin operation issued by the master, in program order:
`inPullUp p` is `p.In(gpio.PullUp, gpio.NoEdge)`, `outLevel p l` is
`p.Out(l)`, `sleep` is one `sleepHalfCycle()` call, `read p l` is a
`p.Read()` that observed level `l`. -/
inductive Ev
  | inPullUp : Pin → Ev
  | outLevel : Pin → Level → Ev
  | sleep : Ev
  | read : Pin → Level → Ev
deriving DecidableEq

/-- Pin-operation errors (`error` values returned by `In`/`Out`) are
abstract; we only need their identity. -/
abbrev Err := Nat

/-- The environment: what the k-th `Read()` of each pin observes, and
whether the k-th pin-configuration operation (`In` or `Out`, counted
globally in program order) fails and with which error. -/
structure Env where
  sclRead : Nat → Level
  sdaRead : Nat → Level
  opErr : Nat → Option Err

/-- Counters threaded through a run: how many reads of each pin and how
many pin-configuration operations have been issued so far. -/
structure St where
  sclReads : Nat
  sdaReads : Nat
  ops : Nat
deriving DecidableEq

/-- The state at the beginning of a run. -/
def initSt : St := ⟨0, 0, 0⟩

/-- The emitted event trace of one routine. -/
abbrev Emit := List Ev

/-- One `p.In(gpio.PullUp, gpio.NoEdge)` call. -/
def doIn (env : Env) (p : Pin) (s : St) : Option Err × Emit × St :=
  (env.opErr s.ops, [Ev.inPullUp p], { s with ops := s.ops + 1 })

/-- One `p.Out(l)` call. -/
def doOut (env : Env) (p : Pin) (l : Level) (s : St) : Option Err × Emit × St :=
  (env.opErr s.ops, [Ev.outLevel p l], { s with ops := s.ops + 1 })

/-- One `p.Read()` call; the observed level comes from the environment. -/
def doRead (env : Env) (p : Pin) (s : St) : Level × Emit × St :=
  match p with
  | Pin.scl => (env.sclRead s.sclReads, [Ev.read Pin.scl (env.sclRead s.sclReads)],
      { s with sclReads := s.sclReads + 1 })
  | Pin.sda => (env.sdaRead s.sdaReads, [Ev.read Pin.sda (env.sdaRead s.sdaReads)],
      { s with sdaReads := s.sdaReads + 1 })

/-- `writeSdaOpenDrain` (i2c.go:63-71): high = release to input with
pull-up, low = drive output low. -/
def writeSdaOpenDrain (env : Env) (b : Bool) (s : St) : Option Err × Emit × St :=
  if b then doIn env Pin.sda s else doOut env Pin.sda Level.low s

/-- `writeSclOpenDrain` (i2c.go:73-81). -/
def writeSclOpenDrain (env : Env) (b : Bool) (s : St) : Option Err × Emit × St :=
  if b then doIn env Pin.scl s else doOut env Pin.scl Level.low s

/-- `New` (i2c.go:36-58): configure SCL as pulled-up input, drive it high,
then the same for SDA; the first failing operation's error is returned.
(The `halfCycle` field it also sets is modelled separately, see `I2C`.) -/
def New (env : Env) (s : St) : Option Err × Emit × St :=
  let (e1, t1, s1) := doIn env Pin.scl s
  match e1 with
  | some e => (some e, t1, s1)
  | none =>
    let (e2, t2, s2) := doOut env Pin.scl Level.high s1
    match e2 with
    | some e => (some e, t1 ++ t2, s2)
    | none =>
      let (e3, t3, s3) := doIn env Pin.sda s2
      match e3 with
      | some e => (some e, t1 ++ t2 ++ t3, s3)
      | none =>
        let (e4, t4, s4) := doOut env Pin.sda Level.high s3
        match e4 with
        | some e => (some e, t1 ++ t2 ++ t3 ++ t4, s4)
        | none => (none, t1 ++ t2 ++ t3 ++ t4, s4)

/-- `start` (i2c.go:251-266): release SDA, release SCL, drive SDA low,
sleep one half-cycle, drive SCL low.  Errors of the open-drain writes are
ignored by the source. -/
def start (env : Env) (s : St) : Emit × St :=
  let (_, t1, s1) := writeSdaOpenDrain env true s
  let (_, t2, s2) := writeSclOpenDrain env true s1
  let (_, t3, s3) := writeSdaOpenDrain env false s2
  let (_, t4, s4) := writeSclOpenDrain env false s3
  (t1 ++ t2 ++ t3 ++ [Ev.sleep] ++ t4, s4)

/-- `stop` (i2c.go:272-282): drive SCL low, sleep, drive SCL high (a direct
`Out(gpio.High)`), sleep, drive SDA high (direct `Out(gpio.High)`), sleep.
The source discards the errors with `_ =`. -/
def stop (env : Env) (s : St) : Emit × St :=
  let (_, t1, s1) := doOut env Pin.scl Level.low s
  let (_, t2, s2) := doOut env Pin.scl Level.high s1
  let (_, t3, s3) := doOut env Pin.sda Level.high s2
  (t1 ++ [Ev.sleep] ++ t2 ++ [Ev.sleep] ++ t3 ++ [Ev.sleep], s3)

/-- The bit loop of `writeByte` (i2c.go:299-305), over the list of loop
indices `x`: set SDA to bit `7-x` of `b`, sleep, raise SCL, sleep, lower
SCL.  All pin-operation errors are discarded by the source. -/
def writeBits (env : Env) (b : Nat) : List Nat → St → Emit × St
  | [], s => ([], s)
  | x :: xs, s =>
    let (_, t1, s1) := writeSdaOpenDrain env (b &&& (1 <<< (7 - x)) != 0) s
    let (_, t2, s2) := writeSclOpenDrain env true s1
    let (_, t3, s3) := writeSclOpenDrain env false s2
    let (tr, s4) := writeBits env b xs s3
    (t1 ++ [Ev.sleep] ++ t2 ++ [Ev.sleep] ++ t3 ++ tr, s4)

/-- The clock-stretch loop of `writeByte` (i2c.go:316-318):
`for i.scl.Read() == gpio.Low { i.sleepHalfCycle() }`.  `fuel` bounds the
number of reads; `none` models the divergence of the Go loop when SCL
never reads high. -/
def stretchLoop (env : Env) : Nat → St → Option (Emit × St)
  | 0, _ => none
  | fuel + 1, s =>
    let (l, t1, s1) := doRead env Pin.scl s
    match l with
    | Level.high => some (t1, s1)
    | Level.low =>
      match stretchLoop env fuel s1 with
      | none => none
      | some (tr, s2) => some (t1 ++ [Ev.sleep] ++ tr, s2)

/-- `writeByte` (i2c.go:291-331): sleep, the 8 data bits, sleep, raise SCL,
release SDA, clock-stretch loop, sample SDA (ACK = low), sleep, lower SCL,
sleep.  The function always returns a `nil` error (`return ack, nil`). -/
def writeByte (env : Env) (fuel : Nat) (b : Nat) (s : St) :
    Option ((Bool × Option Err) × Emit × St) :=
  let (tb, s1) := writeBits env b (List.range 8) s
  let (_, t2, s2) := writeSclOpenDrain env true s1
  let (_, t3, s3) := writeSdaOpenDrain env true s2
  match stretchLoop env fuel s3 with
  | none => none
  | some (ts, s4) =>
    let (l, t4, s5) := doRead env Pin.sda s4
    let ack := l == Level.low
    let (_, t5, s6) := writeSclOpenDrain env false s5
    some ((ack, none),
      [Ev.sleep] ++ tb ++ [Ev.sleep] ++ t2 ++ t3 ++ ts ++ t4 ++ [Ev.sleep] ++ t5 ++ [Ev.sleep],
      s6)

/-- The bit loop of `readByte` (i2c.go:342-353), over the list of loop
indices `x`, accumulating into `b`: sleep, raise SCL, sleep, sample SDA
(high sets bit `7-x`), lower SCL. -/
def readBits (env : Env) : List Nat → Nat → St → Nat × Emit × St
  | [], b, s => (b, [], s)
  | x :: xs, b, s =>
    let (_, t1, s1) := writeSclOpenDrain env true s
    let (l, t2, s2) := doRead env Pin.sda s1
    let b1 := if l == Level.high then b ||| (1 <<< (7 - x)) else b
    let (_, t3, s3) := writeSclOpenDrain env false s2
    let (b2, tr, s4) := readBits env xs b1 s3
    (b2, [Ev.sleep] ++ t1 ++ [Ev.sleep] ++ t2 ++ t3 ++ tr, s4)

/-- `readByte` (i2c.go:336-363): release SDA, the 8 bit reads, sleep,
drive SDA low (the forced ACK), raise SCL, sleep, return the byte.  The
routine returns no error; pin-operation failures are ignored. -/
def readByte (env : Env) (s : St) : Nat × Emit × St :=
  let (_, t0, s1) := doIn env Pin.sda s
  let (b, tb, s2) := readBits env (List.range 8) 0 s1
  let (_, t1, s3) := writeSdaOpenDrain env false s2
  let (_, t2, s4) := writeSclOpenDrain env true s3
  (b, t0 ++ tb ++ [Ev.sleep] ++ t1 ++ t2 ++ [Ev.sleep], s4)

/-- The errors a transaction can report: `errors.New("bitbang-i2c: invalid
address")`, `errors.New("bitbang-i2c: got NACK")`, or a propagated pin
error. -/
inductive I2CError
  | invalidAddress
  | nack
  | pin : Err → I2CError
deriving DecidableEq

/-- `SkipAddr` (i2c.go:25): the sentinel that omits the address phase. -/
def SkipAddr : Nat := 0xFFFF

/-- The address byte `Tx` transmits (i2c.go:117-121): shift the (uint16)
address left one bit, set the low bit when the READ buffer `r` is empty
(`len(r) == 0` in the source), then truncate with `byte(addr)`. -/
def txAddrByte (addr : Nat) (rlen : Nat) : Nat :=
  let a := (addr <<< 1) % 65536
  let a2 := if rlen = 0 then a ||| 1 else a
  a2 % 256

/-- The address phase of `Tx` (i2c.go:110-128): skip on the sentinel,
reject `addr > 0xFF`, otherwise transmit `txAddrByte` and require ACK. -/
def txAddrPhase (env : Env) (fuel : Nat) (addr : Nat) (rlen : Nat) (s : St) :
    Option (Option I2CError × Emit × St) :=
  if addr = SkipAddr then some (none, [], s)
  else if addr > 0xFF then some (some I2CError.invalidAddress, [], s)
  else
    match writeByte env fuel (txAddrByte addr rlen) s with
    | none => none
    | some ((ack, err), t1, s1) =>
      match err with
      | some e => some (some (I2CError.pin e), t1, s1)
      | none =>
        if ack then some (none, t1, s1) else some (some I2CError.nack, t1, s1)

/-- The write loop shared by `Tx` (i2c.go:129-137) and `ReadRepeatedStart`
(i2c.go:184-192): write each byte, returning the first error or NACK. -/
def writeBytesLoop (env : Env) (fuel : Nat) : List Nat → St → Option (Option I2CError × Emit × St)
  | [], s => some (none, [], s)
  | b :: bs, s =>
    match writeByte env fuel b s with
    | none => none
    | some ((ack, err), t1, s1) =>
      match err with
      | some e => some (some (I2CError.pin e), t1, s1)
      | none =>
        if ack then
          match writeBytesLoop env fuel bs s1 with
          | none => none
          | some (res, tr, s2) => some (res, t1 ++ tr, s2)
        else some (some I2CError.nack, t1, s1)

/-- The read loop of both transactions (`for x := range r { r[x] =
i.readByte() }`), reading `n` bytes. -/
def readBytesLoop (env : Env) : Nat → St → List Nat × Emit × St
  | 0, s => ([], [], s)
  | n + 1, s =>
    let (b, t1, s1) := readByte env s
    let (bs, tr, s2) := readBytesLoop env n s1
    (b :: bs, t1 ++ tr, s2)

/-- `Tx` (i2c.go:101-143): start, deferred stop, address phase, write
loop, read loop.  The deferred `stop` runs on every return path; when the
clock-stretch loop diverges (`none`) the function never returns and no
stop is issued.  The result carries the returned error, the bytes read
into `r`, the emitted trace and the final counters. -/
def Tx (env : Env) (fuel : Nat) (addr : Nat) (w : List Nat) (rlen : Nat) (s : St) :
    Option ((Option I2CError × List Nat) × Emit × St) :=
  let (t0, s0) := start env s
  match txAddrPhase env fuel addr rlen s0 with
  | none => none
  | some (some e, t1, s1) =>
    let (t9, s9) := stop env s1
    some ((some e, []), t0 ++ t1 ++ t9, s9)
  | some (none, t1, s1) =>
    match writeBytesLoop env fuel w s1 with
    | none => none
    | some (some e, t2, s2) =>
      let (t9, s9) := stop env s2
      some ((some e, []), t0 ++ t1 ++ t2 ++ t9, s9)
    | some (none, t2, s2) =>
      let (rb, t3, s3) := readBytesLoop env rlen s2
      let (t9, s9) := stop env s3
      some ((none, rb), t0 ++ t1 ++ t2 ++ t3 ++ t9, s9)

/-- The first address phase of `ReadRepeatedStart` (i2c.go:166-182): skip
on the sentinel, reject `addr > 0xFF`, otherwise shift left (uint16),
transmit `byte(addr)` and require ACK.  Unlike `Tx`, no read/write bit is
set here.  The shifted address is returned for the second phase. -/
def rrsAddr1Phase (env : Env) (fuel : Nat) (addr : Nat) (s : St) :
    Option ((Option I2CError × Nat) × Emit × St) :=
  if addr = SkipAddr then some ((none, addr), [], s)
  else if addr > 0xFF then some ((some I2CError.invalidAddress, addr), [], s)
  else
    let addr2 := (addr <<< 1) % 65536
    match writeByte env fuel (addr2 % 256) s with
    | none => none
    | some ((ack, err), t1, s1) =>
      match err with
      | some e => some ((some (I2CError.pin e), addr2), t1, s1)
      | none =>
        if ack then some ((none, addr2), t1, s1)
        else some ((some I2CError.nack, addr2), t1, s1)

/-- The second address phase of `ReadRepeatedStart` (i2c.go:197-215),
after the repeated start: the SAME checks run again on the now already
shifted address, then the read bit is set (`addr |= 1`) and the byte
transmitted. -/
def rrsAddr2Phase (env : Env) (fuel : Nat) (addr2 : Nat) (s : St) :
    Option (Option I2CError × Emit × St) :=
  if addr2 = SkipAddr then some (none, [], s)
  else if addr2 > 0xFF then some (some I2CError.invalidAddress, [], s)
  else
    match writeByte env fuel ((addr2 ||| 1) % 256) s with
    | none => none
    | some ((ack, err), t1, s1) =>
      match err with
      | some e => some (some (I2CError.pin e), t1, s1)
      | none =>
        if ack then some (none, t1, s1) else some (some I2CError.nack, t1, s1)

/-- `ReadRepeatedStart` (i2c.go:149-223): wake pulse (start, sleep, stop,
sleep), main start with deferred stop, first address phase, write loop,
repeated start, second address phase, read loop. -/
def ReadRepeatedStart (env : Env) (fuel : Nat) (addr : Nat) (w : List Nat) (rlen : Nat)
    (s : St) : Option ((Option I2CError × List Nat) × Emit × St) :=
  let (ta, sa) := start env s
  let (tb, sb) := stop env sa
  let (t0, s0) := start env sb
  match rrsAddr1Phase env fuel addr s0 with
  | none => none
  | some ((some e, _), t1, s1) =>
    let (t9, s9) := stop env s1
    some ((some e, []), ta ++ [Ev.sleep] ++ tb ++ [Ev.sleep] ++ t0 ++ t1 ++ t9, s9)
  | some ((none, addr2), t1, s1) =>
    match writeBytesLoop env fuel w s1 with
    | none => none
    | some (some e, t2, s2) =>
      let (t9, s9) := stop env s2
      some ((some e, []), ta ++ [Ev.sleep] ++ tb ++ [Ev.sleep] ++ t0 ++ t1 ++ t2 ++ t9, s9)
    | some (none, t2, s2) =>
      let (t3, s3) := start env s2
      match rrsAddr2Phase env fuel addr2 s3 with
      | none => none
      | some (some e, t4, s4) =>
        let (t9, s9) := stop env s4
        some ((some e, []),
          ta ++ [Ev.sleep] ++ tb ++ [Ev.sleep] ++ t0 ++ t1 ++ t2 ++ t3 ++ t4 ++ t9, s9)
      | some (none, t4, s4) =>
        let (rb, t5, s5) := readBytesLoop env rlen s4
        let (t9, s9) := stop env s5
        some ((none, rb),
          ta ++ [Ev.sleep] ++ tb ++ [Ev.sleep] ++ t0 ++ t1 ++ t2 ++ t3 ++ t4 ++ t5 ++ t9, s9)

/-- The `I2C` struct's timing configuration (i2c.go:84-89): the
`halfCycle` duration, in nanoseconds. -/
structure I2C where
  halfCycle : Nat
deriving DecidableEq

/-- Modelled from the spec: the Timing Source "converts a target bus
frequency into a half-cycle delay".  `physic.Frequency` and its `Period()`
method live outside `src/`; one cycle of `f` Hz lasts `10^9 / f`
nanoseconds. -/
def period (f : Nat) : Nat := 1000000000 / f

/-- `SetSpeed` (i2c.go:226-231): recompute `halfCycle` as `f.Period() / 2`. -/
def SetSpeed (_i : I2C) (f : Nat) : I2C := { halfCycle := period f / 2 }

/-- The duration `sleepHalfCycle` (i2c.go:366-370) actually waits:
`time.Sleep(time.Microsecond)` — a fixed 1000 ns, ignoring `halfCycle`
(the `cpu.Nanospin(i.halfCycle)` line is commented out in the source). -/
def sleepHalfCycleDuration (_i : I2C) : Nat := 1000

/-! ## Observables on results and traces -/

/-- The error component of a transaction result (`none` when the call never
returns). -/
def errOf (r : Option ((Option I2CError × List Nat) × Emit × St)) : Option I2CError :=
  match r with
  | none => none
  | some x => x.1.1

/-- The bytes a transaction read into `r` (empty when the call never
returns). -/
def readOf (r : Option ((Option I2CError × List Nat) × Emit × St)) : List Nat :=
  match r with
  | none => []
  | some x => x.1.2

/-- The event trace of a transaction (empty when the call never returns). -/
def emitOf (r : Option ((Option I2CError × List Nat) × Emit × St)) : Emit :=
  match r with
  | none => []
  | some x => x.2.1

/-- The final counters of a transaction. -/
def stOf (r : Option ((Option I2CError × List Nat) × Emit × St)) : St :=
  match r with
  | none => initSt
  | some x => x.2.2

/-- The error `writeByte` returns (`none` also when it diverges). -/
def wbErrOf (r : Option ((Bool × Option Err) × Emit × St)) : Option Err :=
  match r with
  | none => none
  | some x => x.1.2

/-- The trace `writeByte` emits (empty when it diverges). -/
def wbEmitOf (r : Option ((Bool × Option Err) × Emit × St)) : Emit :=
  match r with
  | none => []
  | some x => x.2.1

/-- Whether a transaction error is a propagated pin error. -/
def isPinErr : Option I2CError → Bool
  | some (I2CError.pin _) => true
  | _ => false

/-- Count of direct `Out(gpio.High)` drives of `sda` in a trace.  Inside a
transaction only `stop` issues this event, so it counts issued stop
conditions. -/
def stopMarkCount (t : Emit) : Nat := t.count (Ev.outLevel Pin.sda Level.high)

/-- Count of SCL releases (`scl.In(PullUp, NoEdge)`) in a trace: one per
clock pulse of `writeByte`/`readByte` and one per `start`. -/
def sclReleaseCount (t : Emit) : Nat := t.count (Ev.inPullUp Pin.scl)

/-- The level a line was last left at by a trace: `inPullUp` leaves it
released high, `outLevel` leaves it driven at that level. -/
def lineStep (p : Pin) (acc : Option Level) : Ev → Option Level
  | Ev.inPullUp q => if q = p then some Level.high else acc
  | Ev.outLevel q l => if q = p then some l else acc
  | _ => acc

/-- The last drive of pin `p` in trace `t` (`none` if `t` never touched it). -/
def lastLine (p : Pin) (t : Emit) : Option Level :=
  t.foldl (lineStep p) none

/-- An environment for a well-behaved slave: SCL reads back high (no clock
stretching), SDA reads back low (every byte acknowledged), and no pin
operation fails. -/
def ackEnv : Env :=
  ⟨fun _ => Level.high, fun _ => Level.low, fun _ => none⟩

/-- The events `start` emits, as a constant list (see `start_val`). -/
def startEvs : Emit :=
  [Ev.inPullUp Pin.sda, Ev.inPullUp Pin.scl, Ev.outLevel Pin.sda Level.low, Ev.sleep,
   Ev.outLevel Pin.scl Level.low]

/-- The events `stop` emits, as a constant list (see `stop_val`).  A stop
condition is the only place a transaction drives SDA output-high, so
`stopMarkCount` counts occurrences of this block in a transaction trace. -/
def stopEvs : Emit :=
  [Ev.outLevel Pin.scl Level.low, Ev.sleep, Ev.outLevel Pin.scl Level.high, Ev.sleep,
   Ev.outLevel Pin.sda Level.high, Ev.sleep]

/-- The start-condition sequence as the spec words it: "drive both clock and
data high, wait one half-cycle, drive data low, wait one half-cycle, drive
clock low" (two waits; the releases ordered as the code orders them). -/
def claimedStartEmit : Emit :=
  [Ev.inPullUp Pin.sda, Ev.inPullUp Pin.scl, Ev.sleep, Ev.outLevel Pin.sda Level.low, Ev.sleep,
   Ev.outLevel Pin.scl Level.low]

/-- The address byte as the spec words it: shift left one bit and "set the
low bit to 1 if there are zero bytes to write", i.e. the read/write bit
comes from the WRITE buffer length (the code uses the read buffer). -/
def claimedTxAddrByte (addr : Nat) (wlen : Nat) : Nat :=
  ((addr <<< 1) ||| (if wlen = 0 then 1 else 0)) % 256

/-- An environment whose 4th pin-configuration operation (the first data-bit
operation of the first `writeByte`, after the four operations of `start`)
fails with error 7; reads behave as in `ackEnv`. -/
def failEnv : Env :=
  ⟨fun _ => Level.high, fun _ => Level.low, fun k => if k = 4 then some 7 else none⟩

/-- A slave that stretches the clock: the first two SCL reads are low, then
high; every byte is acknowledged. -/
def stretchEnv : Env :=
  ⟨fun k => if k < 2 then Level.low else Level.high, fun _ => Level.low, fun _ => none⟩

set_option maxRecDepth 100000

lemma writeSda_val (env : Env) (b : Bool) (s : St) :
    writeSdaOpenDrain env b s =
      (env.opErr s.ops, [if b then Ev.inPullUp Pin.sda else Ev.outLevel Pin.sda Level.low],
       { s with ops := s.ops + 1 }) := by
  cases b <;> rfl

lemma writeScl_val (env : Env) (b : Bool) (s : St) :
    writeSclOpenDrain env b s =
      (env.opErr s.ops, [if b then Ev.inPullUp Pin.scl else Ev.outLevel Pin.scl Level.low],
       { s with ops := s.ops + 1 }) := by
  cases b <;> rfl

lemma writeBits_count_outHigh (env : Env) (b : Nat) (p : Pin) :
    ∀ (xs : List Nat) (s : St), ((writeBits env b xs s).1).count (Ev.outLevel p Level.high) = 0
  | [], _ => rfl
  | x :: xs, s => by
    have ih := writeBits_count_outHigh env b p xs
    cases hb : (b &&& (1 <<< (7 - x)) != 0) <;>
      simp [writeBits, writeSda_val, writeScl_val, hb, List.count_append, ih]

lemma stretchLoop_count_outHigh (env : Env) (p : Pin) :
    ∀ (fuel : Nat) (s : St) (t : Emit) (s' : St), stretchLoop env fuel s = some (t, s') →
      t.count (Ev.outLevel p Level.high) = 0
  | 0, s, t, s' => by intro h; exact absurd h (by simp [stretchLoop])
  | fuel + 1, s, t, s' => by
    intro h
    rcases hl : env.sclRead s.sclReads with _ | _
    · rcases hr : stretchLoop env fuel { s with sclReads := s.sclReads + 1 } with _ | ⟨tr, s2⟩
      · simp [stretchLoop, doRead, hl, hr] at h
      · have ih := stretchLoop_count_outHigh env p fuel _ tr s2 hr
        simp [stretchLoop, doRead, hl, hr] at h
        rcases h with ⟨h1, h2⟩
        subst h1
        simp [List.count_append, List.count_cons, ih]
    · simp [stretchLoop, doRead, hl] at h
      rcases h with ⟨h1, h2⟩
      subst h1
      rfl


lemma writeByte_count_outHigh (env : Env) (fuel b : Nat) (s : St) (p : Pin)
    (r : (Bool × Option Err) × Emit × St) (h : writeByte env fuel b s = some r) :
    (r.2.1).count (Ev.outLevel p Level.high) = 0 := by
  unfold writeByte at h
  rcases hw : writeBits env b (List.range 8) s with ⟨tb, s1⟩
  rw [hw] at h
  simp only [writeScl_val, writeSda_val] at h
  rcases hs : stretchLoop env fuel { { s1 with ops := s1.ops + 1 } with ops := s1.ops + 1 + 1 } with _ | ⟨ts, s4⟩
  · rw [hs] at h; exact absurd h (by simp)
  · rw [hs] at h
    simp only [doRead, Option.some.injEq] at h
    subst h
    have h1 := writeBits_count_outHigh env b p (List.range 8) s
    rw [hw] at h1
    have h2 := stretchLoop_count_outHigh env p fuel _ ts s4 hs
    simp [List.count_append, List.count_cons, h1, h2]

lemma readBits_count_outHigh (env : Env) (p : Pin) :
    ∀ (xs : List Nat) (b : Nat) (s : St),
      ((readBits env xs b s).2.1).count (Ev.outLevel p Level.high) = 0
  | [], _, _ => rfl
  | x :: xs, b, s => by
    rcases hl : env.sdaRead ({ s with ops := s.ops + 1 } : St).sdaReads with _ | _ <;>
    · have ih := readBits_count_outHigh env p xs
      simp [readBits, writeScl_val, doRead, hl, List.count_append, List.count_cons, ih]

lemma readByte_count_outHigh (env : Env) (s : St) (p : Pin) :
    ((readByte env s).2.1).count (Ev.outLevel p Level.high) = 0 := by
  have ih := readBits_count_outHigh env p (List.range 8) 0 { s with ops := s.ops + 1 }
  rcases hr : readBits env (List.range 8) 0 { s with ops := s.ops + 1 } with ⟨b, tb, s2⟩
  rw [hr] at ih
  simp [readByte, doIn, writeSda_val, writeScl_val, hr, List.count_append, List.count_cons, ih]


lemma writeBytesLoop_count_outHigh (env : Env) (fuel : Nat) (p : Pin) :
    ∀ (bs : List Nat) (s : St) (res : Option I2CError) (t : Emit) (s' : St),
      writeBytesLoop env fuel bs s = some (res, t, s') →
      t.count (Ev.outLevel p Level.high) = 0
  | [], s, res, t, s' => by
    intro h
    simp [writeBytesLoop] at h
    rcases h with ⟨h1, h2, h3⟩
    subst h2
    rfl
  | b :: bs, s, res, t, s' => by
    intro h
    unfold writeBytesLoop at h
    rcases hw : writeByte env fuel b s with _ | ⟨⟨ack, err⟩, t1, s1⟩
    · rw [hw] at h; exact absurd h (by simp)
    · rw [hw] at h
      have h1 := writeByte_count_outHigh env fuel b s p _ hw
      rcases err with _ | e
      · rcases ack with _ | _
        · simp at h
          rcases h with ⟨h2, h3, h4⟩
          subst h3
          exact h1
        · simp at h
          rcases hr : writeBytesLoop env fuel bs s1 with _ | ⟨res2, tr, s2⟩
          · rw [hr] at h; exact absurd h (by simp)
          · rw [hr] at h
            have ih := writeBytesLoop_count_outHigh env fuel p bs s1 res2 tr s2 hr
            simp at h
            rcases h with ⟨h2, h3, h4⟩
            subst h3
            simp [List.count_append, h1, ih]
      · simp at h
        rcases h with ⟨h2, h3, h4⟩
        subst h3
        exact h1

lemma readBytesLoop_count_outHigh (env : Env) (p : Pin) :
    ∀ (n : Nat) (s : St), ((readBytesLoop env n s).2.1).count (Ev.outLevel p Level.high) = 0
  | 0, _ => rfl
  | n + 1, s => by
    have h1 := readByte_count_outHigh env s p
    rcases hr : readByte env s with ⟨b, t1, s1⟩
    rw [hr] at h1
    have ih := readBytesLoop_count_outHigh env p n s1
    rcases hl : readBytesLoop env n s1 with ⟨bs, tr, s2⟩
    rw [hl] at ih
    simp [readBytesLoop, hr, hl, List.count_append, h1, ih]

lemma txAddrPhase_count_outHigh (env : Env) (fuel addr rlen : Nat) (s : St) (p : Pin)
    (res : Option I2CError) (t : Emit) (s' : St)
    (h : txAddrPhase env fuel addr rlen s = some (res, t, s')) :
    t.count (Ev.outLevel p Level.high) = 0 := by
  unfold txAddrPhase at h
  by_cases h1 : addr = SkipAddr
  · simp [h1] at h; rcases h with ⟨_, h2, _⟩; subst h2; rfl
  · by_cases h2 : addr > 0xFF
    · simp [h1, h2] at h; rcases h with ⟨_, h3, _⟩; subst h3; rfl
    · rcases hw : writeByte env fuel (txAddrByte addr rlen) s with _ | ⟨⟨ack, err⟩, t1, s1⟩
      · simp [h1, h2, hw] at h
      · have hc := writeByte_count_outHigh env fuel (txAddrByte addr rlen) s p _ hw
        rcases err with _ | e
        · rcases ack with _ | _ <;>
          · simp [h1, h2, hw] at h
            rcases h with ⟨_, h3, _⟩
            subst h3
            exact hc
        · simp [h1, h2, hw] at h
          rcases h with ⟨_, h3, _⟩
          subst h3
          exact hc


lemma start_val (env : Env) (s : St) :
    start env s = (startEvs, { s with ops := s.ops + 4 }) := rfl

lemma stop_val (env : Env) (s : St) :
    stop env s = (stopEvs, { s with ops := s.ops + 3 }) := rfl

lemma startEvs_count_outHigh (p : Pin) : startEvs.count (Ev.outLevel p Level.high) = 0 := by
  cases p <;> rfl

lemma lastLine_scl_stop (t : Emit) : lastLine Pin.scl (t ++ stopEvs) = some Level.high := by
  rw [lastLine, List.foldl_append]
  rfl

lemma lastLine_sda_stop (t : Emit) : lastLine Pin.sda (t ++ stopEvs) = some Level.high := by
  rw [lastLine, List.foldl_append]
  rfl

lemma rrsAddr1Phase_count_outHigh (env : Env) (fuel addr : Nat) (s : St) (p : Pin)
    (res : Option I2CError × Nat) (t : Emit) (s' : St)
    (h : rrsAddr1Phase env fuel addr s = some (res, t, s')) :
    t.count (Ev.outLevel p Level.high) = 0 := by
  unfold rrsAddr1Phase at h
  by_cases h1 : addr = SkipAddr
  · simp [h1] at h; rcases h with ⟨_, h2, _⟩; subst h2; rfl
  · by_cases h2 : addr > 0xFF
    · simp [h1, h2] at h; rcases h with ⟨_, h3, _⟩; subst h3; rfl
    · rcases hw : writeByte env fuel ((addr <<< 1) % 65536 % 256) s with _ | ⟨⟨ack, err⟩, t1, s1⟩
      · simp [h1, h2, hw] at h
      · have hc := writeByte_count_outHigh env fuel ((addr <<< 1) % 65536 % 256) s p _ hw
        rcases err with _ | e
        · rcases ack with _ | _ <;>
          · simp [h1, h2, hw] at h
            rcases h with ⟨_, h3, _⟩
            subst h3
            exact hc
        · simp [h1, h2, hw] at h
          rcases h with ⟨_, h3, _⟩
          subst h3
          exact hc

lemma rrsAddr2Phase_count_outHigh (env : Env) (fuel addr2 : Nat) (s : St) (p : Pin)
    (res : Option I2CError) (t : Emit) (s' : St)
    (h : rrsAddr2Phase env fuel addr2 s = some (res, t, s')) :
    t.count (Ev.outLevel p Level.high) = 0 := by
  unfold rrsAddr2Phase at h
  by_cases h1 : addr2 = SkipAddr
  · simp [h1] at h; rcases h with ⟨_, h2, _⟩; subst h2; rfl
  · by_cases h2 : addr2 > 0xFF
    · simp [h1, h2] at h; rcases h with ⟨_, h3, _⟩; subst h3; rfl
    · rcases hw : writeByte env fuel ((addr2 ||| 1) % 256) s with _ | ⟨⟨ack, err⟩, t1, s1⟩
      · simp [h1, h2, hw] at h
      · have hc := writeByte_count_outHigh env fuel ((addr2 ||| 1) % 256) s p _ hw
        rcases err with _ | e
        · rcases ack with _ | _ <;>
          · simp [h1, h2, hw] at h
            rcases h with ⟨_, h3, _⟩
            subst h3
            exact hc
        · simp [h1, h2, hw] at h
          rcases h with ⟨_, h3, _⟩
          subst h3
          exact hc


lemma tx_some_shape (env : Env) (fuel addr : Nat) (w : List Nat) (rlen : Nat) (s : St)
    (r : (Option I2CError × List Nat) × Emit × St) (h : Tx env fuel addr w rlen s = some r) :
    ∃ pre, r.2.1 = pre ++ stopEvs ∧ ∀ p, pre.count (Ev.outLevel p Level.high) = 0 := by
  unfold Tx at h
  rw [start_val] at h
  dsimp only at h
  rcases hA : txAddrPhase env fuel addr rlen { s with ops := s.ops + 4 } with _ | ⟨_ | e, t1, s1⟩
  · rw [hA] at h; exact absurd h (by simp)
  · rw [hA] at h
    dsimp only at h
    have hc1 : ∀ p, t1.count (Ev.outLevel p Level.high) = 0 :=
      fun p => txAddrPhase_count_outHigh env fuel addr rlen _ p _ _ _ hA
    rcases hW : writeBytesLoop env fuel w s1 with _ | ⟨_ | e, t2, s2⟩
    · rw [hW] at h; exact absurd h (by simp)
    · rw [hW] at h
      dsimp only at h
      have hc2 : ∀ p, t2.count (Ev.outLevel p Level.high) = 0 :=
        fun p => writeBytesLoop_count_outHigh env fuel p w s1 _ _ _ hW
      rcases hR : readBytesLoop env rlen s2 with ⟨rb, t3, s3⟩
      have hc3 : ∀ p, t3.count (Ev.outLevel p Level.high) = 0 := by
        intro p
        have := readBytesLoop_count_outHigh env p rlen s2
        rw [hR] at this
        exact this
      rw [hR, stop_val] at h
      dsimp only at h
      rcases Option.some.inj h with h2
      refine ⟨startEvs ++ t1 ++ t2 ++ t3, ?_, ?_⟩
      · rw [← h2]
      · intro p
        simp [List.count_append, startEvs_count_outHigh, hc1 p, hc2 p, hc3 p]
    · rw [hW] at h
      dsimp only at h
      rw [stop_val] at h
      dsimp only at h
      have hc2 : ∀ p, t2.count (Ev.outLevel p Level.high) = 0 :=
        fun p => writeBytesLoop_count_outHigh env fuel p w s1 _ _ _ hW
      rcases Option.some.inj h with h2
      refine ⟨startEvs ++ t1 ++ t2, ?_, ?_⟩
      · rw [← h2]
      · intro p
        simp [List.count_append, startEvs_count_outHigh, hc1 p, hc2 p]
  · rw [hA] at h
    dsimp only at h
    rw [stop_val] at h
    dsimp only at h
    have hc1 : ∀ p, t1.count (Ev.outLevel p Level.high) = 0 :=
      fun p => txAddrPhase_count_outHigh env fuel addr rlen _ p _ _ _ hA
    rcases Option.some.inj h with h2
    refine ⟨startEvs ++ t1, ?_, ?_⟩
    · rw [← h2]
    · intro p
      simp [List.count_append, startEvs_count_outHigh, hc1 p]


lemma stopEvs_count_outHigh (p : Pin) : stopEvs.count (Ev.outLevel p Level.high) = 1 := by
  cases p <;> rfl

lemma rrs_some_shape (env : Env) (fuel addr : Nat) (w : List Nat) (rlen : Nat) (s : St)
    (r : (Option I2CError × List Nat) × Emit × St)
    (h : ReadRepeatedStart env fuel addr w rlen s = some r) :
    ∃ pre, r.2.1 = pre ++ stopEvs ∧ ∀ p, pre.count (Ev.outLevel p Level.high) = 1 := by
  unfold ReadRepeatedStart at h
  rw [start_val] at h
  dsimp only at h
  rw [stop_val] at h
  dsimp only at h
  rw [start_val] at h
  dsimp only at h
  rcases hA : rrsAddr1Phase env fuel addr { s with ops := s.ops + 4 + 3 + 4 }
    with _ | ⟨⟨_ | e, addr2⟩, t1, s1⟩
  · rw [hA] at h; exact absurd h (by simp)
  · rw [hA] at h
    dsimp only at h
    have hc1 : ∀ p, t1.count (Ev.outLevel p Level.high) = 0 :=
      fun p => rrsAddr1Phase_count_outHigh env fuel addr _ p _ _ _ hA
    rcases hW : writeBytesLoop env fuel w s1 with _ | ⟨_ | e, t2, s2⟩
    · rw [hW] at h; exact absurd h (by simp)
    · rw [hW] at h
      dsimp only at h
      rw [start_val] at h
      dsimp only at h
      have hc2 : ∀ p, t2.count (Ev.outLevel p Level.high) = 0 :=
        fun p => writeBytesLoop_count_outHigh env fuel p w s1 _ _ _ hW
      rcases hA2 : rrsAddr2Phase env fuel addr2 { s2 with ops := s2.ops + 4 }
        with _ | ⟨_ | e, t4, s4⟩
      · rw [hA2] at h; exact absurd h (by simp)
      · rw [hA2] at h
        dsimp only at h
        have hc4 : ∀ p, t4.count (Ev.outLevel p Level.high) = 0 :=
          fun p => rrsAddr2Phase_count_outHigh env fuel addr2 _ p _ _ _ hA2
        rcases hR : readBytesLoop env rlen s4 with ⟨rb, t5, s5⟩
        have hc5 : ∀ p, t5.count (Ev.outLevel p Level.high) = 0 := by
          intro p
          have := readBytesLoop_count_outHigh env p rlen s4
          rw [hR] at this
          exact this
        rw [hR, stop_val] at h
        dsimp only at h
        rcases Option.some.inj h with h2
        refine ⟨startEvs ++ [Ev.sleep] ++ stopEvs ++ [Ev.sleep] ++ startEvs ++ t1 ++ t2 ++
          startEvs ++ t4 ++ t5, ?_, ?_⟩
        · rw [← h2]
        · intro p
          simp [List.count_append, startEvs_count_outHigh, stopEvs_count_outHigh,
            hc1 p, hc2 p, hc4 p, hc5 p]
      · rw [hA2] at h
        dsimp only at h
        rw [stop_val] at h
        dsimp only at h
        have hc4 : ∀ p, t4.count (Ev.outLevel p Level.high) = 0 :=
          fun p => rrsAddr2Phase_count_outHigh env fuel addr2 _ p _ _ _ hA2
        rcases Option.some.inj h with h2
        refine ⟨startEvs ++ [Ev.sleep] ++ stopEvs ++ [Ev.sleep] ++ startEvs ++ t1 ++ t2 ++
          startEvs ++ t4, ?_, ?_⟩
        · rw [← h2]
        · intro p
          simp [List.count_append, startEvs_count_outHigh, stopEvs_count_outHigh,
            hc1 p, hc2 p, hc4 p]
    · rw [hW] at h
      dsimp only at h
      rw [stop_val] at h
      dsimp only at h
      have hc2 : ∀ p, t2.count (Ev.outLevel p Level.high) = 0 :=
        fun p => writeBytesLoop_count_outHigh env fuel p w s1 _ _ _ hW
      rcases Option.some.inj h with h2
      refine ⟨startEvs ++ [Ev.sleep] ++ stopEvs ++ [Ev.sleep] ++ startEvs ++ t1 ++ t2, ?_, ?_⟩
      · rw [← h2]
      · intro p
        simp [List.count_append, startEvs_count_outHigh, stopEvs_count_outHigh, hc1 p, hc2 p]
  · rw [hA] at h
    dsimp only at h
    rw [stop_val] at h
    dsimp only at h
    have hc1 : ∀ p, t1.count (Ev.outLevel p Level.high) = 0 :=
      fun p => rrsAddr1Phase_count_outHigh env fuel addr _ p _ _ _ hA
    rcases Option.some.inj h with h2
    refine ⟨startEvs ++ [Ev.sleep] ++ stopEvs ++ [Ev.sleep] ++ startEvs ++ t1, ?_, ?_⟩
    · rw [← h2]
    · intro p
      simp [List.count_append, startEvs_count_outHigh, stopEvs_count_outHigh, hc1 p]


lemma writeByte_err_none (env : Env) (fuel b : Nat) (s : St) :
    wbErrOf (writeByte env fuel b s) = none := by
  unfold writeByte
  rcases hw : writeBits env b (List.range 8) s with ⟨tb, s1⟩
  dsimp only
  simp only [writeScl_val, writeSda_val]
  rcases hs : stretchLoop env fuel { s1 with ops := s1.ops + 1 + 1 } with _ | ⟨ts, s4⟩
  · rfl
  · rfl

lemma writeByte_some_err (env : Env) (fuel b : Nat) (s : St) (ack : Bool) (err : Option Err)
    (t : Emit) (s' : St) (h : writeByte env fuel b s = some ((ack, err), t, s')) :
    err = none := by
  have h2 := writeByte_err_none env fuel b s
  rw [h] at h2
  exact h2

lemma txAddrPhase_no_pin (env : Env) (fuel addr rlen : Nat) (s : St)
    (res : Option I2CError) (t : Emit) (s' : St)
    (h : txAddrPhase env fuel addr rlen s = some (res, t, s')) : isPinErr res = false := by
  unfold txAddrPhase at h
  by_cases h1 : addr = SkipAddr
  · simp [h1] at h; rcases h with ⟨h2, _⟩; rw [← h2]; rfl
  · by_cases h2 : addr > 0xFF
    · simp [h1, h2] at h; rcases h with ⟨h3, _⟩; rw [← h3]; rfl
    · rcases hw : writeByte env fuel (txAddrByte addr rlen) s with _ | ⟨⟨ack, err⟩, t1, s1⟩
      · simp [h1, h2, hw] at h
      · have he := writeByte_some_err env fuel (txAddrByte addr rlen) s ack err t1 s1 hw
        subst he
        rcases ack with _ | _ <;>
        · simp [h1, h2, hw] at h
          rcases h with ⟨h3, _⟩
          rw [← h3]
          rfl

lemma rrsAddr1Phase_no_pin (env : Env) (fuel addr : Nat) (s : St)
    (res : Option I2CError) (a2 : Nat) (t : Emit) (s' : St)
    (h : rrsAddr1Phase env fuel addr s = some ((res, a2), t, s')) : isPinErr res = false := by
  unfold rrsAddr1Phase at h
  by_cases h1 : addr = SkipAddr
  · simp [h1] at h; rcases h with ⟨⟨h2, _⟩, _⟩; rw [← h2]; rfl
  · by_cases h2 : addr > 0xFF
    · simp [h1, h2] at h; rcases h with ⟨⟨h3, _⟩, _⟩; rw [← h3]; rfl
    · rcases hw : writeByte env fuel ((addr <<< 1) % 65536 % 256) s with _ | ⟨⟨ack, err⟩, t1, s1⟩
      · simp [h1, h2, hw] at h
      · have he := writeByte_some_err env fuel _ s ack err t1 s1 hw
        subst he
        rcases ack with _ | _ <;>
        · simp [h1, h2, hw] at h
          rcases h with ⟨⟨h3, _⟩, _⟩
          rw [← h3]
          rfl

lemma rrsAddr2Phase_no_pin (env : Env) (fuel addr2 : Nat) (s : St)
    (res : Option I2CError) (t : Emit) (s' : St)
    (h : rrsAddr2Phase env fuel addr2 s = some (res, t, s')) : isPinErr res = false := by
  unfold rrsAddr2Phase at h
  by_cases h1 : addr2 = SkipAddr
  · simp [h1] at h; rcases h with ⟨h2, _⟩; rw [← h2]; rfl
  · by_cases h2 : addr2 > 0xFF
    · simp [h1, h2] at h; rcases h with ⟨h3, _⟩; rw [← h3]; rfl
    · rcases hw : writeByte env fuel ((addr2 ||| 1) % 256) s with _ | ⟨⟨ack, err⟩, t1, s1⟩
      · simp [h1, h2, hw] at h
      · have he := writeByte_some_err env fuel _ s ack err t1 s1 hw
        subst he
        rcases ack with _ | _ <;>
        · simp [h1, h2, hw] at h
          rcases h with ⟨h3, _⟩
          rw [← h3]
          rfl

lemma writeBytesLoop_no_pin (env : Env) (fuel : Nat) :
    ∀ (bs : List Nat) (s : St) (res : Option I2CError) (t : Emit) (s' : St),
      writeBytesLoop env fuel bs s = some (res, t, s') → isPinErr res = false
  | [], s, res, t, s' => by
    intro h
    simp [writeBytesLoop] at h
    rcases h with ⟨h1, _⟩
    rw [← h1]
    rfl
  | b :: bs, s, res, t, s' => by
    intro h
    unfold writeBytesLoop at h
    rcases hw : writeByte env fuel b s with _ | ⟨⟨ack, err⟩, t1, s1⟩
    · rw [hw] at h; exact absurd h (by simp)
    · have he := writeByte_some_err env fuel b s ack err t1 s1 hw
      subst he
      rw [hw] at h
      rcases ack with _ | _
      · simp at h
        rcases h with ⟨h1, _⟩
        rw [← h1]
        rfl
      · simp at h
        rcases hr : writeBytesLoop env fuel bs s1 with _ | ⟨res2, tr, s2⟩
        · rw [hr] at h; exact absurd h (by simp)
        · rw [hr] at h
          simp at h
          rcases h with ⟨h1, _⟩
          rw [← h1]
          exact writeBytesLoop_no_pin env fuel bs s1 res2 tr s2 hr


lemma tx_no_pin (env : Env) (fuel addr : Nat) (w : List Nat) (rlen : Nat) (s : St) :
    isPinErr (errOf (Tx env fuel addr w rlen s)) = false := by
  unfold Tx
  rw [start_val]
  dsimp only
  rcases hA : txAddrPhase env fuel addr rlen { s with ops := s.ops + 4 } with _ | ⟨_ | e, t1, s1⟩
  · rfl
  · dsimp only
    rcases hW : writeBytesLoop env fuel w s1 with _ | ⟨_ | e, t2, s2⟩
    · rfl
    · rfl
    · have := writeBytesLoop_no_pin env fuel w s1 (some e) t2 s2 hW
      simpa [errOf, isPinErr] using this
  · have := txAddrPhase_no_pin env fuel addr rlen _ (some e) t1 s1 hA
    simpa [errOf, isPinErr] using this

lemma rrs_no_pin (env : Env) (fuel addr : Nat) (w : List Nat) (rlen : Nat) (s : St) :
    isPinErr (errOf (ReadRepeatedStart env fuel addr w rlen s)) = false := by
  unfold ReadRepeatedStart
  rw [start_val]
  dsimp only
  rw [stop_val]
  dsimp only
  rw [start_val]
  dsimp only
  rcases hA : rrsAddr1Phase env fuel addr { s with ops := s.ops + 4 + 3 + 4 }
    with _ | ⟨⟨_ | e, addr2⟩, t1, s1⟩
  · rfl
  · dsimp only
    rcases hW : writeBytesLoop env fuel w s1 with _ | ⟨_ | e, t2, s2⟩
    · rfl
    · dsimp only
      rw [start_val]
      dsimp only
      rcases hA2 : rrsAddr2Phase env fuel addr2 { s2 with ops := s2.ops + 4 } with _ | ⟨_ | e, t4, s4⟩
      · rfl
      · rfl
      · have := rrsAddr2Phase_no_pin env fuel addr2 _ (some e) t4 s4 hA2
        simpa [errOf, isPinErr] using this
    · have := writeBytesLoop_no_pin env fuel w s1 (some e) t2 s2 hW
      simpa [errOf, isPinErr] using this
  · have := rrsAddr1Phase_no_pin env fuel addr _ (some e) addr2 t1 s1 hA
    simpa [errOf, isPinErr] using this


/-- Claim C2 (corrected): on every exit path of `Tx` exactly ONE stop
condition is issued (counted by the `Out(sda, high)` drive that only `stop`
emits inside a transaction), and on every exit path of `ReadRepeatedStart`
exactly TWO are issued (the wake pulse contributes one more than the claim
allows); in both, the trace ends with a stop, leaving both lines high. -/
theorem tx_rrs_guaranteed_stop :
    (∀ env fuel addr w rlen s, (Tx env fuel addr w rlen s).isSome = true →
      stopMarkCount (emitOf (Tx env fuel addr w rlen s)) = 1 ∧
      lastLine Pin.scl (emitOf (Tx env fuel addr w rlen s)) = some Level.high ∧
      lastLine Pin.sda (emitOf (Tx env fuel addr w rlen s)) = some Level.high) ∧
    (∀ env fuel addr w rlen s, (ReadRepeatedStart env fuel addr w rlen s).isSome = true →
      stopMarkCount (emitOf (ReadRepeatedStart env fuel addr w rlen s)) = 2 ∧
      lastLine Pin.scl (emitOf (ReadRepeatedStart env fuel addr w rlen s)) = some Level.high ∧
      lastLine Pin.sda (emitOf (ReadRepeatedStart env fuel addr w rlen s)) = some Level.high) := by
  constructor
  · intro env fuel addr w rlen s hS
    rcases h2 : Tx env fuel addr w rlen s with _ | r
    · rw [h2] at hS; exact absurd hS (by simp)
    · rcases tx_some_shape env fuel addr w rlen s r h2 with ⟨pre, hpre, hcnt⟩
      have he : emitOf (some r) = pre ++ stopEvs := hpre
      rw [he]
      refine ⟨?_, lastLine_scl_stop pre, lastLine_sda_stop pre⟩
      simp [stopMarkCount, List.count_append, hcnt Pin.sda, stopEvs_count_outHigh Pin.sda]
  · intro env fuel addr w rlen s hS
    rcases h2 : ReadRepeatedStart env fuel addr w rlen s with _ | r
    · rw [h2] at hS; exact absurd hS (by simp)
    · rcases rrs_some_shape env fuel addr w rlen s r h2 with ⟨pre, hpre, hcnt⟩
      have he : emitOf (some r) = pre ++ stopEvs := hpre
      rw [he]
      refine ⟨?_, lastLine_scl_stop pre, lastLine_sda_stop pre⟩
      simp [stopMarkCount, List.count_append, hcnt Pin.sda, stopEvs_count_outHigh Pin.sda]

/-- Claim C4 (corrected): within `start`, `writeByte` and `readByte` a line
is set high only by switching it to input with pull-up — no direct
output-high drive is emitted; but `stop` and `New` each issue direct
`Out(gpio.High)` drives, so the claim fails for those operations. -/
theorem open_drain_discipline :
    (∀ env s p, ((start env s).1).count (Ev.outLevel p Level.high) = 0) ∧
    (∀ env fuel b s p, (wbEmitOf (writeByte env fuel b s)).count (Ev.outLevel p Level.high) = 0) ∧
    (∀ env s p, ((readByte env s).2.1).count (Ev.outLevel p Level.high) = 0) ∧
    ((stop ackEnv initSt).1).count (Ev.outLevel Pin.scl Level.high) = 1 ∧
    ((New ackEnv initSt).2.1).count (Ev.outLevel Pin.sda Level.high) = 1 := by
  refine ⟨?_, ?_, ?_, by decide, by decide⟩
  · intro env s p
    rw [start_val]
    exact startEvs_count_outHigh p
  · intro env fuel b s p
    rcases hw : writeByte env fuel b s with _ | r
    · rfl
    · have := writeByte_count_outHigh env fuel b s p r hw
      simpa [wbEmitOf] using this
  · intro env s p
    exact readByte_count_outHigh env s p

/-- Claim C7 (corrected): `writeByte` always returns a nil error (pin
failures inside it are discarded), and consequently neither `Tx` nor
`ReadRepeatedStart` ever surfaces a pin error to the caller — the opposite
of the claimed immediate propagation. -/
theorem transactions_never_pin_error :
    (∀ env fuel b s, wbErrOf (writeByte env fuel b s) = none) ∧
    (∀ env fuel addr w rlen s, isPinErr (errOf (Tx env fuel addr w rlen s)) = false) ∧
    (∀ env fuel addr w rlen s, isPinErr (errOf (ReadRepeatedStart env fuel addr w rlen s)) = false) :=
  ⟨writeByte_err_none, tx_no_pin, rrs_no_pin⟩


lemma writeBits_st (env : Env) (b : Nat) :
    ∀ (xs : List Nat) (s : St),
      ((writeBits env b xs s).2).sclReads = s.sclReads ∧
      ((writeBits env b xs s).2).sdaReads = s.sdaReads
  | [], _ => ⟨rfl, rfl⟩
  | x :: xs, s => by
    have ih := writeBits_st env b xs
      { { { s with ops := s.ops + 1 } with ops := s.ops + 1 + 1 } with ops := s.ops + 1 + 1 + 1 }
    cases hb : (b &&& (1 <<< (7 - x)) != 0) <;>
      simpa [writeBits, writeSda_val, writeScl_val, hb] using ih

lemma writeBits_count_sleep (env : Env) (b : Nat) :
    ∀ (xs : List Nat) (s : St), ((writeBits env b xs s).1).count Ev.sleep = 2 * xs.length
  | [], _ => rfl
  | x :: xs, s => by
    have ih := writeBits_count_sleep env b xs
    cases hb : (b &&& (1 <<< (7 - x)) != 0) <;>
      simp [writeBits, writeSda_val, writeScl_val, hb, List.count_append, ih] <;> omega

lemma writeBits_count_read (env : Env) (b : Nat) (p : Pin) (l : Level) :
    ∀ (xs : List Nat) (s : St), ((writeBits env b xs s).1).count (Ev.read p l) = 0
  | [], _ => rfl
  | x :: xs, s => by
    have ih := writeBits_count_read env b p l xs
    cases hb : (b &&& (1 <<< (7 - x)) != 0) <;>
      rcases p with _ | _ <;>
      simp [writeBits, writeSda_val, writeScl_val, hb, List.count_append, ih]

lemma stretchLoop_spec (env : Env) :
    ∀ (N fuel : Nat) (s : St),
      (∀ k, k < N → env.sclRead (s.sclReads + k) = Level.low) →
      env.sclRead (s.sclReads + N) = Level.high →
      N < fuel →
      ∃ t, stretchLoop env fuel s = some (t, { s with sclReads := s.sclReads + N + 1 }) ∧
        t.count Ev.sleep = N ∧
        t.count (Ev.read Pin.scl Level.low) = N ∧
        t.count (Ev.read Pin.scl Level.high) = 1
  | 0, fuel, s => by
    intro _ hhigh hfuel
    rcases fuel with _ | f
    · exact absurd hfuel (by omega)
    · have hh : env.sclRead s.sclReads = Level.high := by simpa using hhigh
      refine ⟨[Ev.read Pin.scl Level.high], ?_, rfl, rfl, rfl⟩
      simp [stretchLoop, doRead, hh]
  | N + 1, fuel, s => by
    intro hlow hhigh hfuel
    rcases fuel with _ | f
    · exact absurd hfuel (by omega)
    · have hl : env.sclRead s.sclReads = Level.low := by
        have := hlow 0 (by omega)
        simpa using this
      have hlow2 : ∀ k, k < N → env.sclRead (s.sclReads + 1 + k) = Level.low := by
        intro k hk
        have h2 := hlow (k + 1) (by omega)
        have h3 : s.sclReads + 1 + k = s.sclReads + (k + 1) := by omega
        rw [h3]
        exact h2
      have hhigh2 : env.sclRead (s.sclReads + 1 + N) = Level.high := by
        have h3 : s.sclReads + 1 + N = s.sclReads + (N + 1) := by omega
        rw [h3]
        exact hhigh
      rcases stretchLoop_spec env N f { s with sclReads := s.sclReads + 1 } hlow2 hhigh2 (by omega)
        with ⟨tr, hst, c1, c2, c3⟩
      refine ⟨[Ev.read Pin.scl Level.low] ++ [Ev.sleep] ++ tr, ?_, ?_, ?_, ?_⟩
      · simp only [stretchLoop, doRead, hl]
        rw [hst]
        dsimp only
        have h4 : s.sclReads + 1 + N + 1 = s.sclReads + (N + 1) + 1 := by omega
        rw [h4]
      · simp [List.count_append, c1]
      · simp [List.count_append, c2]
      · simp [List.count_append, c3]


/-- Claim C8 (confirmed): if the slave holds SCL low for `N` reads after the
master raises it and then releases it, `writeByte` performs exactly `N`
additional half-cycle sleeps (total sleeps `20 + N`, with `20` the
stretch-free baseline), polls SCL low exactly `N` times and high once, and
the returned acknowledgement is true iff the SDA sample reads low. -/
theorem writeByte_clock_stretch (env : Env) (fuel N b : Nat) (s : St)
    (hlow : ∀ k, k < N → env.sclRead (s.sclReads + k) = Level.low)
    (hhigh : env.sclRead (s.sclReads + N) = Level.high)
    (hfuel : N < fuel) :
    ∃ t s', writeByte env fuel b s = some ((env.sdaRead s.sdaReads == Level.low, none), t, s') ∧
      t.count Ev.sleep = 20 + N ∧
      t.count (Ev.read Pin.scl Level.low) = N ∧
      t.count (Ev.read Pin.scl Level.high) = 1 := by
  unfold writeByte
  rcases hw : writeBits env b (List.range 8) s with ⟨tb, s1⟩
  have hst1 := writeBits_st env b (List.range 8) s
  rw [hw] at hst1
  have hcs := writeBits_count_sleep env b (List.range 8) s
  rw [hw] at hcs
  have hcrl := writeBits_count_read env b Pin.scl Level.low (List.range 8) s
  rw [hw] at hcrl
  have hcrh := writeBits_count_read env b Pin.scl Level.high (List.range 8) s
  rw [hw] at hcrh
  dsimp only
  simp only [writeScl_val, writeSda_val]
  have hscl2 : ({ s1 with ops := s1.ops + 1 + 1 } : St).sclReads = s.sclReads := hst1.1
  have hsda2 : ({ s1 with ops := s1.ops + 1 + 1 } : St).sdaReads = s.sdaReads := hst1.2
  rcases stretchLoop_spec env N fuel { s1 with ops := s1.ops + 1 + 1 }
    (by rw [hscl2]; exact hlow) (by rw [hscl2]; exact hhigh) hfuel with ⟨ts, hst, c1, c2, c3⟩
  rw [hst]
  dsimp only [doRead]
  have h5 : s1.sdaReads = s.sdaReads := hst1.2
  rw [h5]
  refine ⟨_, _, rfl, ?_, ?_, ?_⟩
  · simp [List.count_append, hcs, c1]
    omega
  · simp [List.count_append, hcrl, c2]
  · simp [List.count_append, hcrh, c3]


lemma ite_or_acc (c : Prop) [Decidable c] (b v : Nat) :
    (if c then b ||| v else b) = b ||| (if c then v else 0) := by
  split <;> simp

lemma testBit_ite_zero (c : Prop) [Decidable c] (v j : Nat) :
    Nat.testBit (if c then v else 0) j = (decide c && Nat.testBit v j) := by
  split <;> simp_all

lemma mod_two_of_ite_zero (c : Prop) [Decidable c] (v : Nat) :
    ((if c then v else 0) % 2 = 1) ↔ (c ∧ v % 2 = 1) := by
  split <;> simp_all

lemma readByte_val (env : Env) (s : St) :
    (readByte env s).1 =
      (if env.sdaRead s.sdaReads = Level.high then 128 else 0) |||
      (if env.sdaRead (s.sdaReads + 1) = Level.high then 64 else 0) |||
      (if env.sdaRead (s.sdaReads + 1 + 1) = Level.high then 32 else 0) |||
      (if env.sdaRead (s.sdaReads + 1 + 1 + 1) = Level.high then 16 else 0) |||
      (if env.sdaRead (s.sdaReads + 1 + 1 + 1 + 1) = Level.high then 8 else 0) |||
      (if env.sdaRead (s.sdaReads + 1 + 1 + 1 + 1 + 1) = Level.high then 4 else 0) |||
      (if env.sdaRead (s.sdaReads + 1 + 1 + 1 + 1 + 1 + 1) = Level.high then 2 else 0) |||
      (if env.sdaRead (s.sdaReads + 1 + 1 + 1 + 1 + 1 + 1 + 1) = Level.high then 1 else 0) := by
  simp [readByte, readBits, doIn, doRead, writeScl_val, ite_or_acc]

lemma testBit_128 (j : Nat) : Nat.testBit 128 j = decide (7 = j) := by
  rw [show (128 : Nat) = 2 ^ 7 from rfl]
  exact Nat.testBit_two_pow

lemma testBit_64 (j : Nat) : Nat.testBit 64 j = decide (6 = j) := by
  rw [show (64 : Nat) = 2 ^ 6 from rfl]
  exact Nat.testBit_two_pow

lemma testBit_32 (j : Nat) : Nat.testBit 32 j = decide (5 = j) := by
  rw [show (32 : Nat) = 2 ^ 5 from rfl]
  exact Nat.testBit_two_pow

lemma testBit_16 (j : Nat) : Nat.testBit 16 j = decide (4 = j) := by
  rw [show (16 : Nat) = 2 ^ 4 from rfl]
  exact Nat.testBit_two_pow

lemma testBit_8 (j : Nat) : Nat.testBit 8 j = decide (3 = j) := by
  rw [show (8 : Nat) = 2 ^ 3 from rfl]
  exact Nat.testBit_two_pow

lemma testBit_4 (j : Nat) : Nat.testBit 4 j = decide (2 = j) := by
  rw [show (4 : Nat) = 2 ^ 2 from rfl]
  exact Nat.testBit_two_pow

lemma testBit_2 (j : Nat) : Nat.testBit 2 j = decide (1 = j) := by
  rw [show (2 : Nat) = 2 ^ 1 from rfl]
  exact Nat.testBit_two_pow

lemma testBit_1 (j : Nat) : Nat.testBit 1 j = decide (0 = j) := by
  rw [show (1 : Nat) = 2 ^ 0 from rfl]
  exact Nat.testBit_two_pow

/-- Claim C9 (confirmed): `readByte` assembles the byte most-significant bit
first — bit `7-x` is set exactly when SDA reads high on the `x`-th clock
pulse — and its trace always ends by driving SDA low and then raising SCL
for the 9th clock: every read byte is acknowledged, never NACKed. -/
theorem readByte_msb_forced_ack (env : Env) (s : St) (x : Nat) (hx : x < 8) :
    (Nat.testBit (readByte env s).1 (7 - x) = true ↔
      env.sdaRead (s.sdaReads + x) = Level.high) ∧
    ∃ pre, (readByte env s).2.1 =
      pre ++ [Ev.sleep, Ev.outLevel Pin.sda Level.low, Ev.inPullUp Pin.scl, Ev.sleep] := by
  constructor
  · rw [readByte_val]
    interval_cases x <;>
      simp [Nat.testBit_or, testBit_ite_zero, testBit_128, testBit_64, testBit_32, testBit_16,
        testBit_8, testBit_4, testBit_2, testBit_1,
        show s.sdaReads + 1 + 1 = s.sdaReads + 2 from rfl,
        show s.sdaReads + 1 + 1 + 1 = s.sdaReads + 3 from rfl,
        show s.sdaReads + 1 + 1 + 1 + 1 = s.sdaReads + 4 from rfl,
        show s.sdaReads + 1 + 1 + 1 + 1 + 1 = s.sdaReads + 5 from rfl,
        show s.sdaReads + 1 + 1 + 1 + 1 + 1 + 1 = s.sdaReads + 6 from rfl,
        show s.sdaReads + 1 + 1 + 1 + 1 + 1 + 1 + 1 = s.sdaReads + 7 from rfl,
        mod_two_of_ite_zero]
  · refine ⟨(doIn env Pin.sda s).2.1 ++
      (readBits env (List.range 8) 0 { s with ops := s.ops + 1 }).2.1, ?_⟩
    simp [readByte, doIn, writeSda_val, writeScl_val]


lemma stretch_ack (fuel : Nat) (s : St) :
    stretchLoop ackEnv (fuel + 1) s =
      some ([Ev.read Pin.scl Level.high], { s with sclReads := s.sclReads + 1 }) := rfl

lemma writeBits_count_sclRelease (env : Env) (b : Nat) :
    ∀ (xs : List Nat) (s : St), ((writeBits env b xs s).1).count (Ev.inPullUp Pin.scl) = xs.length
  | [], _ => rfl
  | x :: xs, s => by
    have ih := writeBits_count_sclRelease env b xs
    cases hb : (b &&& (1 <<< (7 - x)) != 0) <;>
      simp [writeBits, writeSda_val, writeScl_val, hb, List.count_append, ih]

lemma writeByte_ack (fuel b : Nat) (s : St) :
    ∃ t s', writeByte ackEnv (fuel + 1) b s = some ((true, none), t, s') ∧
      sclReleaseCount t = 9 := by
  unfold writeByte
  rcases hw : writeBits ackEnv b (List.range 8) s with ⟨tb, s1⟩
  have hc := writeBits_count_sclRelease ackEnv b (List.range 8) s
  rw [hw] at hc
  have hc8 : tb.count (Ev.inPullUp Pin.scl) = 8 := hc
  dsimp only
  simp only [writeScl_val, writeSda_val]
  rw [stretch_ack]
  dsimp only [doRead]
  refine ⟨_, _, rfl, ?_⟩
  simp [sclReleaseCount, List.count_append, hc8]

lemma writeBytesLoop_ack (fuel : Nat) :
    ∀ (bs : List Nat) (s : St), ∃ t s',
      writeBytesLoop ackEnv (fuel + 1) bs s = some (none, t, s') ∧
      sclReleaseCount t = 9 * bs.length
  | [], s => ⟨[], s, rfl, rfl⟩
  | b :: bs, s => by
    rcases writeByte_ack fuel b s with ⟨t1, s1, hw, hc1⟩
    rcases writeBytesLoop_ack fuel bs s1 with ⟨tr, s2, hr, hcr⟩
    refine ⟨t1 ++ tr, s2, ?_, ?_⟩
    · unfold writeBytesLoop
      rw [hw]
      dsimp only
      rw [hr]
      rfl
    · simp [sclReleaseCount, List.count_append] at hc1 hcr ⊢
      simp [hc1, hcr]
      omega

lemma rrsAddr1Phase_ack (fuel addr : Nat) (s : St) (h2 : addr ≤ 0xFF) :
    ∃ t s', rrsAddr1Phase ackEnv (fuel + 1) addr s =
      some ((none, (addr <<< 1) % 65536), t, s') ∧ sclReleaseCount t = 9 := by
  rcases writeByte_ack fuel ((addr <<< 1) % 65536 % 256) s with ⟨t1, s1, hw, hc1⟩
  refine ⟨t1, s1, ?_, hc1⟩
  unfold rrsAddr1Phase
  rw [if_neg (by simp [SkipAddr]; omega), if_neg (by omega)]
  dsimp only
  rw [hw]
  rfl

lemma rrsAddr2Phase_big (fuel addr2 : Nat) (s : St) (hgt : addr2 > 0xFF)
    (hne : addr2 ≠ SkipAddr) :
    rrsAddr2Phase ackEnv fuel addr2 s = some (some I2CError.invalidAddress, [], s) := by
  unfold rrsAddr2Phase
  rw [if_neg hne, if_pos hgt]


/-- Claim C10 (confirmed): for any address in 0x80..0xFF and an
acknowledging slave, `ReadRepeatedStart` passes its initial `> 0xFF` check,
transmits the (truncated) address byte and the whole write buffer — the
trace holds `3 + 9 * (1 + |w|)` SCL releases: three starts plus nine clock
pulses per transmitted byte — and only then fails the post-repeated-start
check, because the address was already shifted left once, returning the
invalid-address error after bytes were driven on the bus. -/
theorem rrs_late_invalid_address (fuel addr : Nat) (w : List Nat) (rlen : Nat) (s : St)
    (h1 : 0x80 ≤ addr) (h2 : addr ≤ 0xFF) :
    errOf (ReadRepeatedStart ackEnv (fuel + 1) addr w rlen s) = some I2CError.invalidAddress ∧
    sclReleaseCount (emitOf (ReadRepeatedStart ackEnv (fuel + 1) addr w rlen s)) =
      3 + 9 * (1 + w.length) := by
  have hsh : addr <<< 1 % 65536 = 2 * addr := by
    rw [Nat.shiftLeft_eq]
    have : addr * 2 ^ 1 = 2 * addr := by ring
    rw [this]
    exact Nat.mod_eq_of_lt (by omega)
  have hA := rrsAddr1Phase_ack fuel addr { s with ops := s.ops + 4 + 3 + 4 } h2
  rcases hA with ⟨tA, sA, hA, hcA⟩
  rcases writeBytesLoop_ack fuel w sA with ⟨tW, sW, hW, hcW⟩
  have hA2 := rrsAddr2Phase_big (fuel + 1) (addr <<< 1 % 65536) { sW with ops := sW.ops + 4 }
    (by omega) (by simp [SkipAddr]; omega)
  unfold ReadRepeatedStart
  rw [start_val]
  dsimp only
  rw [stop_val]
  dsimp only
  rw [start_val]
  dsimp only
  rw [hA]
  dsimp only
  rw [hW]
  dsimp only
  rw [start_val]
  dsimp only
  rw [hA2]
  dsimp only
  rw [stop_val]
  dsimp only
  constructor
  · rfl
  · show sclReleaseCount (startEvs ++ [Ev.sleep] ++ stopEvs ++ [Ev.sleep] ++ startEvs ++ tA ++
      tW ++ startEvs ++ [] ++ stopEvs) = 3 + 9 * (1 + w.length)
    simp [sclReleaseCount, List.count_append] at hcA hcW ⊢
    simp [hcA, hcW, show List.count (Ev.inPullUp Pin.scl) startEvs = 1 from rfl,
      show List.count (Ev.inPullUp Pin.scl) stopEvs = 0 from rfl]
    omega


/-- Claim C1 (code bug): `Tx` with address 0x80 — above the 7-bit range —
does NOT return the address-range error: the check at i2c.go:111 reads
`addr > 0xFF`, so 0x80 passes validation; the call succeeds and the trace
shows ten SCL releases (one from `start`, nine from transmitting the
truncated address byte), i.e. bytes were transferred. -/
theorem tx_accepts_out_of_range_addr :
    (0x7F : Nat) < 0x80 ∧
    errOf (Tx ackEnv 1 0x80 [] 0 initSt) = none ∧
    (Tx ackEnv 1 0x80 [] 0 initSt).isSome = true ∧
    sclReleaseCount (emitOf (Tx ackEnv 1 0x80 [] 0 initSt)) = 10 := by
  refine ⟨by omega, ?_, ?_, ?_⟩ <;> rfl

/-- Claim C2 counterexample: a successful `ReadRepeatedStart` call issues
TWO stop conditions (the wake pulse's and the deferred one), not exactly
one as claimed; `stopMarkCount` counts the `Out(sda, high)` drive unique to
`stop`. -/
theorem rrs_issues_two_stops :
    stopMarkCount (emitOf (ReadRepeatedStart ackEnv 1 0x0B [0x0D] 1 initSt)) = 2 ∧
    (ReadRepeatedStart ackEnv 1 0x0B [0x0D] 1 initSt).isSome = true := by
  constructor <;> rfl

/-- Witness for `tx_rrs_guaranteed_stop` at a concrete transaction. -/
theorem tx_rrs_guaranteed_stop_witness :
    (stopMarkCount (emitOf (Tx ackEnv 1 0x0B [] 0 initSt)) = 1 ∧
      lastLine Pin.scl (emitOf (Tx ackEnv 1 0x0B [] 0 initSt)) = some Level.high ∧
      lastLine Pin.sda (emitOf (Tx ackEnv 1 0x0B [] 0 initSt)) = some Level.high) ∧
    (stopMarkCount (emitOf (ReadRepeatedStart ackEnv 1 0x0B [] 0 initSt)) = 2 ∧
      lastLine Pin.scl (emitOf (ReadRepeatedStart ackEnv 1 0x0B [] 0 initSt)) = some Level.high ∧
      lastLine Pin.sda (emitOf (ReadRepeatedStart ackEnv 1 0x0B [] 0 initSt)) = some Level.high) :=
  ⟨tx_rrs_guaranteed_stop.1 ackEnv 1 0x0B [] 0 initSt (by rfl),
   tx_rrs_guaranteed_stop.2 ackEnv 1 0x0B [] 0 initSt (by rfl)⟩

/-- Claim C3 (code bug): lowering the frequency with `SetSpeed` does NOT
increase the wait `sleepHalfCycle` performs: the routine sleeps a fixed
microsecond (i2c.go:367) and never reads the `halfCycle` field `SetSpeed`
updates, so the duration is identical for any two frequencies. -/
theorem setSpeed_wait_unchanged (i : I2C) (f1 f2 : Nat) (_h : f2 < f1) :
    sleepHalfCycleDuration (SetSpeed i f2) = sleepHalfCycleDuration (SetSpeed i f1) := rfl

/-- Witness for `setSpeed_wait_unchanged` at 100 Hz vs 50 Hz. -/
theorem setSpeed_wait_unchanged_witness :
    50 < 100 ∧
    sleepHalfCycleDuration (SetSpeed ⟨5000⟩ 50) = sleepHalfCycleDuration (SetSpeed ⟨5000⟩ 100) :=
  ⟨by omega, setSpeed_wait_unchanged ⟨5000⟩ 100 50 (by omega)⟩

/-- Claim C4 counterexample: both `stop` (i2c.go:276,278) and `New`
(i2c.go:42,49) issue direct `Out(gpio.High)` drives on SCL and SDA,
refuting "a direct output-high drive is never issued on either line". -/
theorem stop_direct_high_drive :
    Ev.outLevel Pin.scl Level.high ∈ (stop ackEnv initSt).1 ∧
    Ev.outLevel Pin.sda Level.high ∈ (stop ackEnv initSt).1 ∧
    Ev.outLevel Pin.scl Level.high ∈ (New ackEnv initSt).2.1 ∧
    Ev.outLevel Pin.sda Level.high ∈ (New ackEnv initSt).2.1 := by
  refine ⟨?_, ?_, ?_, ?_⟩ <;> decide

/-- Claim C5 counterexample: the start condition emits exactly ONE
half-cycle wait, while the claimed sequence ("drive clock and data high,
wait, drive data low, wait, drive clock low") contains two — the code pulls
SDA low immediately after releasing the lines, with no intervening wait. -/
theorem start_missing_first_wait :
    (start ackEnv initSt).1.count Ev.sleep = 1 ∧
    claimedStartEmit.count Ev.sleep = 2 ∧
    (start ackEnv initSt).1 ≠ claimedStartEmit := by
  refine ⟨rfl, rfl, ?_⟩
  decide

/-- Claim C5 (corrected): `start` performs exactly: release SDA high,
release SCL high, drive SDA low, wait one half-cycle, drive SCL low — a
single wait, placed after SDA goes low; on completion both lines were last
driven low. -/
theorem start_single_wait_sequence (env : Env) (s : St) :
    (start env s).1 =
      [Ev.inPullUp Pin.sda, Ev.inPullUp Pin.scl, Ev.outLevel Pin.sda Level.low, Ev.sleep,
       Ev.outLevel Pin.scl Level.low] ∧
    lastLine Pin.scl (start env s).1 = some Level.low ∧
    lastLine Pin.sda (start env s).1 = some Level.low := ⟨rfl, rfl, rfl⟩

/-- Claim C6 (code bug): for a read-only transaction (empty write buffer,
one byte to read) `Tx` transmits address byte 0x16 for address 0x0B — the
read/write bit is cleared because i2c.go:118 tests `len(r) == 0`, the READ
buffer — whereas the claim (and the I²C protocol) require 0x17, the low bit
set when there are zero bytes to WRITE. -/
theorem tx_addr_rw_bit_uses_read_buffer :
    txAddrByte 0x0B 1 = 0x16 ∧
    claimedTxAddrByte 0x0B 0 = 0x17 ∧
    (txAddrByte 0x0B 1 == claimedTxAddrByte 0x0B 0) = false := by
  refine ⟨rfl, rfl, rfl⟩

/-- Claim C7 counterexample: with pin-configuration operation 4 (the first
data-bit operation inside `writeByte`) failing with error 7, `Tx` still
returns success — 34 pin-configuration operations are issued in total, so
the failing one was executed and its error discarded, not propagated. -/
theorem pin_error_swallowed :
    failEnv.opErr 4 = some 7 ∧
    errOf (Tx failEnv 1 SkipAddr [5] 0 initSt) = none ∧
    (Tx failEnv 1 SkipAddr [5] 0 initSt).isSome = true ∧
    (stOf (Tx failEnv 1 SkipAddr [5] 0 initSt)).ops = 34 := by
  refine ⟨rfl, ?_, ?_, ?_⟩ <;> rfl

/-- Witness for `writeByte_clock_stretch`: a slave stretching for 2
half-cycles. -/
theorem writeByte_clock_stretch_witness :
    ∃ t s', writeByte stretchEnv 3 0x55 initSt =
      some ((stretchEnv.sdaRead initSt.sdaReads == Level.low, none), t, s') ∧
      t.count Ev.sleep = 20 + 2 ∧
      t.count (Ev.read Pin.scl Level.low) = 2 ∧
      t.count (Ev.read Pin.scl Level.high) = 1 :=
  writeByte_clock_stretch stretchEnv 3 2 0x55 initSt
    (by intro k hk; interval_cases k <;> rfl) (by rfl) (by omega)

/-- Witness for `readByte_msb_forced_ack` at bit index 0. -/
theorem readByte_msb_forced_ack_witness :
    (Nat.testBit (readByte ackEnv initSt).1 (7 - 0) = true ↔
      ackEnv.sdaRead (initSt.sdaReads + 0) = Level.high) ∧
    ∃ pre, (readByte ackEnv initSt).2.1 =
      pre ++ [Ev.sleep, Ev.outLevel Pin.sda Level.low, Ev.inPullUp Pin.scl, Ev.sleep] :=
  readByte_msb_forced_ack ackEnv initSt 0 (by omega)

/-- Witness for `rrs_late_invalid_address`: address 0x80 with a one-byte
register selector. -/
theorem rrs_late_invalid_address_witness :
    errOf (ReadRepeatedStart ackEnv 1 0x80 [0x0D] 1 initSt) = some I2CError.invalidAddress ∧
    sclReleaseCount (emitOf (ReadRepeatedStart ackEnv 1 0x80 [0x0D] 1 initSt)) =
      3 + 9 * (1 + [0x0D].length) :=
  rrs_late_invalid_address 0 0x80 [0x0D] 1 initSt (by omega) (by omega)

end Bitbang
